/-
  Verification of the sampling-and-validation core of the
  `try-point-blank` repository (notebook `src/notebooks/titanic.ipynb`).

  The notebook loads the Titanic dataset into a DuckDB table, adds a
  unique `id` column via `ROW_NUMBER() OVER ()`, splits the table into
  randomised samples (`create_random_samples`), and validates samples
  with the external `pointblank` library (`validate_titanic_data_sample`,
  `get_sundered_data`).

  Embedding conventions:
  * A table is a list of rows; a row is an association list from column
    names to nullable scalar values.  Scalar numerics are modelled as
    integers (no claim exercises fractional values).
  * `create_random_samples` is translated from the notebook source:
    `rows_per_sample = ceil(total_rows / n_sample)`, shuffle by seed,
    then contiguous slices `shuffled[i*rps : (i+1)*rps]` for
    `i in range(n_sample)`.  Python raises `ZeroDivisionError` for
    `n_sample = 0`, and for negative `n_sample` the `range` loop is
    empty, so the result is modelled as `Except`.
  * The pseudo-random shuffle (pandas `DataFrame.sample(frac=1,
    random_state=seed)`) is external library code.  Modelled from the
    spec: a deterministic pseudo-random permutation keyed only by the
    seed and the rows, realised by sorting on a seeded linear
    congruential key (the spec leaves the exact permutation open and
    mandates only determinism and the permutation property).
  * The `pointblank` rule semantics (`col_vals_not_null`,
    `col_vals_between`, `col_vals_in_set`, `get_sundered_data`) are
    external library code.  Modelled from the spec where used.
-/
import Mathlib

namespace TryPointBlank

/-- A nullable scalar cell value: integer numeric, string, or null.
(The spec data model allows integer, float, string, or null; numerics
are modelled as integers since no claim depends on fractional values.) -/
inductive Value where
  | int : Int → Value
  | str : String → Value
  | null : Value
deriving DecidableEq

/-- A row: a mapping from column name to nullable scalar value,
as an association list. -/
abbrev Row := List (String × Value)

/-- A table: an ordered sequence of rows. -/
abbrev Table := List Row

/-- The value of a column in a row (`none` when the column is absent). -/
def colVal (c : String) (r : Row) : Option Value := r.lookup c

/-- The `id` column of a row, as stored. -/
def idVal (r : Row) : Option Value := r.lookup "id"

/-- The `id` column of a row as an integer (0 when absent or non-numeric);
used as the sort key of `pandas.sort_values("id")`. -/
def idInt (r : Row) : Int :=
  match r.lookup "id" with
  | some (Value.int k) => k
  | _ => 0

/-- `SELECT *, ROW_NUMBER() OVER () AS id`: append a unique `id` column
(row number, starting at 1) to a row. -/
def addRowId (i : Nat) (r : Row) : Row := r ++ [("id", Value.int (i + 1))]

/-- Ingestion (`get_create_titanic_db`): build the `titanic` table from
raw CSV rows by appending a unique `id` column numbered `1..R` via
`ROW_NUMBER() OVER ()`. -/
def get_create_titanic_db (raw : List Row) : Table :=
  raw.enum.map (fun p => addRowId p.1 p.2)

/-! ### The seeded shuffle -/

/-- One step of a 32-bit linear congruential generator. -/
def lcg (x : Nat) : Nat := (1664525 * x + 1013904223) % 4294967296

/-- The shuffle key of original position `i` under `seed`. -/
def shuffleKey (seed i : Nat) : Nat := lcg (seed * 2654435761 + lcg i)

/-- Ordering of keyed rows `(key, original index, row)`: by key, ties by
original index (so the order is total and the shuffle deterministic). -/
def keyLe (a b : Nat × Nat × Row) : Prop :=
  a.1 < b.1 ∨ (a.1 = b.1 ∧ a.2.1 ≤ b.2.1)

instance : DecidableRel keyLe := fun a b => by
  unfold keyLe; exact inferInstance

/-- Modelled from the spec: `pandas.DataFrame.sample(frac=1,
random_state=seed)` is external library code; the spec mandates a
deterministic pseudo-random permutation of the rows keyed only by the
seed (and the rows), leaving the permutation itself open.  Realised by
sorting the rows on a seeded linear congruential key. -/
def shuffleRows (seed : Nat) (rows : List Row) : List Row :=
  (List.insertionSort keyLe
      (rows.enum.map (fun p => (shuffleKey seed p.1, p.1, p.2)))).map
    (fun t => t.2.2)

/-- Python exceptions that `create_random_samples` can raise. -/
inductive PyErr where
  | zeroDivisionError : PyErr
deriving DecidableEq

/-- `create_random_samples(con, n_sample, RANDOM_SEED)` from the
notebook: read the row count, compute `rows_per_sample =
ceil(total_rows / n_sample)` (a `ZeroDivisionError` when `n_sample = 0`),
shuffle all rows by the seed, and return the slices
`shuffled_rows[i*rps : (i+1)*rps]` for `i in range(n_sample)` together
with their sizes.  For negative `n_sample` the `range` loop is empty
and the result is a pair of empty lists. -/
def create_random_samples (table : Table) (n_sample : Int)
    (random_seed : Nat) : Except PyErr (List Table × List Nat) :=
  if n_sample = 0 then Except.error PyErr.zeroDivisionError
  else
    let total_rows := table.length
    let rows_per_sample := (total_rows + n_sample.toNat - 1) / n_sample.toNat
    let shuffled_rows := shuffleRows random_seed table
    let samples := (List.range n_sample.toNat).map
      (fun i => (shuffled_rows.drop (i * rows_per_sample)).take rows_per_sample)
    Except.ok (samples, samples.map List.length)

/-- `pd.concat(samples).sort_values("id")`: concatenate the samples and
sort by the `id` column. -/
def idLe (a b : Row) : Prop := idInt a ≤ idInt b

instance : DecidableRel idLe := fun a b => by
  unfold idLe; exact inferInstance

instance : IsTotal Row idLe := ⟨fun a b => Int.le_total (idInt a) (idInt b)⟩

instance : IsTrans Row idLe := ⟨fun _ _ _ h1 h2 => Int.le_trans h1 h2⟩

/-- `concat_samples = pd.concat(samples).sort_values("id")` from the
notebook cross-check cell. -/
def concat_samples (samples : List Table) : Table :=
  List.insertionSort idLe samples.flatten

/-! ### Validation rules

`pointblank`'s rule semantics are external library code; the rule
evaluators below are modelled from the spec (§4.3). -/

/-- Null handling policy of a range rule (`na_pass` in `pointblank`). -/
inductive NullPolicy where
  | passOnNull : NullPolicy
  | failOnNull : NullPolicy
deriving DecidableEq

/-- Modelled from the spec: `pointblank.col_vals_not_null` is external
library code.  "passes a row iff the column value is not null"; fails
closed when the column is absent. -/
def notNullPass (v : Option Value) : Bool :=
  match v with
  | some Value.null => false
  | some _ => true
  | none => false

/-- Modelled from the spec: `pointblank.col_vals_between` is external
library code.  "passes a row iff `min <= value <= max` (inclusive both
ends); if value is null, passes iff `null_policy == PassOnNull`, else
fails"; fails closed when the column is absent or non-numeric. -/
def betweenPass (lo hi : Int) (np : NullPolicy) (v : Option Value) : Bool :=
  match v with
  | some (Value.int x) => decide (lo ≤ x ∧ x ≤ hi)
  | some Value.null => np == NullPolicy.passOnNull
  | some (Value.str _) => false
  | none => false

/-- Modelled from the spec: `pointblank.col_vals_in_set` is external
library code.  "passes a row iff value is a member of `allowed_values`;
null values always fail this rule (no implicit pass)"; fails closed
when the column is absent. -/
def inSetPass (allowed : List Value) (v : Option Value) : Bool :=
  match v with
  | some Value.null => false
  | some x => allowed.contains x
  | none => false

/-- A declarative column rule: a tagged variant over
NotNull / Between / InSet (spec §3). -/
inductive Rule where
  | notNull (column : String)
  | between (column : String) (lo hi : Int) (np : NullPolicy)
  | inSet (column : String) (allowed : List Value)
deriving DecidableEq

/-- Whether one row passes one rule. -/
def rowPasses (rule : Rule) (r : Row) : Bool :=
  match rule with
  | Rule.notNull c => notNullPass (colVal c r)
  | Rule.between c lo hi np => betweenPass lo hi np (colVal c r)
  | Rule.inSet c allowed => inSetPass allowed (colVal c r)

/-- Per-rule evaluation outcome (spec §3 `RuleResult`). -/
structure RuleResult where
  rule : Rule
  rows_evaluated : Nat
  rows_passed : Nat
  failing_row_ids : List Int
deriving DecidableEq

/-- Evaluate one rule over every row of a table, recording the failing
rows' identifiers in original row order. -/
def evalRule (t : Table) (rule : Rule) : RuleResult :=
  { rule := rule
    rows_evaluated := t.length
    rows_passed := (t.filter (fun r => rowPasses rule r)).length
    failing_row_ids := (t.filter (fun r => !rowPasses rule r)).map idInt }

/-- Modelled from the spec: `pointblank`'s `.interrogate()` is external
library code.  Evaluate each rule of the rule set independently, in
declaration order, over all rows. -/
def interrogate (t : Table) (rules : List Rule) : List RuleResult :=
  rules.map (evalRule t)

/-- Whether a row's identifier occurs among the failing identifiers of
at least one rule result of the report. -/
def failsAnyRule (report : List RuleResult) (r : Row) : Bool :=
  report.any (fun res => res.failing_row_ids.contains (idInt r))

/-- Modelled from the spec: `pointblank`'s `get_sundered_data` is
external library code.  Split a table into the passing rows and the
rows that failed at least one rule of the report (union across all
rule results), by row identifier. -/
def get_sundered_data (t : Table) (report : List RuleResult) :
    Table × Table :=
  (t.filter (fun r => !failsAnyRule report r),
   t.filter (fun r => failsAnyRule report r))

/-- The rule set of `validate_titanic_data_sample` in the notebook. -/
def titanic_rules : List Rule :=
  [ Rule.notNull "survived", Rule.notNull "pclass", Rule.notNull "sex",
    Rule.notNull "age", Rule.notNull "ticket", Rule.notNull "fare",
    Rule.notNull "embarked",
    Rule.between "age" 0 70 NullPolicy.passOnNull,
    Rule.between "fare" 0 500 NullPolicy.failOnNull,
    Rule.inSet "pclass" [Value.int 1, Value.int 2, Value.int 3],
    Rule.inSet "embarked" [Value.str "C", Value.str "Q", Value.str "S"],
    Rule.inSet "survived" [Value.int 0, Value.int 1],
    Rule.inSet "sex" [Value.str "male", Value.str "female"] ]

/-! ### State-threaded forms (for the frame property)

The notebook's operations touch the database / source dataframe only
through reads (`SELECT COUNT(*)`, `SELECT *`, `DataFrame.sample` which
returns a new frame).  The forms below thread the source table through
each such read explicitly, so that "the source is unchanged" is a
statement about the returned state. -/

/-- `con.sql("SELECT COUNT(*) FROM titanic")`: a read returning the row
count and the (unchanged) database state. -/
def sql_count (db : Table) : Nat × Table := (db.length, db)

/-- `con.sql("SELECT * FROM titanic").fetchdf()`: a read returning all
rows and the (unchanged) database state. -/
def sql_select_all (db : Table) : Table × Table := (db, db)

/-- `create_random_samples` with the database state threaded through
its two reads, returning the result together with the final database
state. -/
def create_random_samples_db (db : Table) (n_sample : Int)
    (random_seed : Nat) : Except PyErr (List Table × List Nat) × Table :=
  let count_res := sql_count db
  let total_rows := count_res.1
  let db1 := count_res.2
  if n_sample = 0 then (Except.error PyErr.zeroDivisionError, db1)
  else
    let rows_per_sample := (total_rows + n_sample.toNat - 1) / n_sample.toNat
    let fetch_res := sql_select_all db1
    let all_rows := fetch_res.1
    let db2 := fetch_res.2
    let shuffled_rows := shuffleRows random_seed all_rows
    let samples := (List.range n_sample.toNat).map
      (fun i => (shuffled_rows.drop (i * rows_per_sample)).take rows_per_sample)
    (Except.ok (samples, samples.map List.length), db2)

/-- `validate_titanic_data_sample(data)` with the source dataframe
threaded through: `pointblank.Validate` only reads `data`, so the
returned source state is the interrogation report together with the
(unchanged) input table. -/
def validate_titanic_data_sample (data : Table) :
    List RuleResult × Table :=
  (interrogate data titanic_rules, data)

/-! ### Concrete tables for the spec's scenarios -/

/-- A 23-row table (scenario C), ingested so rows carry ids `1..23`. -/
def table23 : Table := get_create_titanic_db (List.replicate 23 [])

/-- A 6-row table, ingested so rows carry ids `1..6`. -/
def table6 : Table := get_create_titanic_db (List.replicate 6 [])

/-- A 3-row table, ingested so rows carry ids `1..3`. -/
def table3 : Table := get_create_titanic_db (List.replicate 3 [])

/-- Scenario A: a 10-row table whose `age` column contains one null and
one value of 85, the rest within `[0, 70]`. -/
def ageTable : Table :=
  get_create_titanic_db
    [ [("age", Value.int 30)], [("age", Value.null)],
      [("age", Value.int 85)], [("age", Value.int 20)],
      [("age", Value.int 0)], [("age", Value.int 70)],
      [("age", Value.int 45)], [("age", Value.int 60)],
      [("age", Value.int 10)], [("age", Value.int 5)] ]

/-- Scenario B: a table whose `embarked` column holds
`["C","Q","S","X",null]`. -/
def embarkedTable : Table :=
  get_create_titanic_db
    [ [("embarked", Value.str "C")], [("embarked", Value.str "Q")],
      [("embarked", Value.str "S")], [("embarked", Value.str "X")],
      [("embarked", Value.null)] ]

/-! ### Helper notions and lemmas -/

/-- Strict ordering of rows by their `id` value. -/
def idLt (a b : Row) : Prop := idInt a < idInt b

instance : DecidableRel idLt := fun a b => by
  unfold idLt; exact inferInstance

instance : IsAntisymm Row idLt :=
  ⟨fun _ _ h1 h2 => absurd (lt_trans h1 h2) (lt_irrefl _)⟩

/-- The number of rows per sample computed by `create_random_samples`:
`math.ceil(total_rows / n_sample)` for a positive `n_sample`. -/
def rowsPerSample (total_rows : Nat) (n_sample : Int) : Nat :=
  (total_rows + n_sample.toNat - 1) / n_sample.toNat

/-- The list of slices `shuffled_rows[i*rps : (i+1)*rps]` built by the
loop of `create_random_samples`. -/
def sampleChunks (table : Table) (n_sample : Int) (random_seed : Nat) :
    List Table :=
  (List.range n_sample.toNat).map
    (fun i =>
      ((shuffleRows random_seed table).drop
          (i * rowsPerSample table.length n_sample)).take
        (rowsPerSample table.length n_sample))

lemma create_random_samples_eq_ok (table : Table) (n_sample : Int)
    (random_seed : Nat) (h : n_sample ≠ 0) :
    create_random_samples table n_sample random_seed =
      Except.ok (sampleChunks table n_sample random_seed,
        (sampleChunks table n_sample random_seed).map List.length) := by
  simp only [create_random_samples, if_neg h, sampleChunks, rowsPerSample]

/-- The shuffle is a permutation of the rows. -/
lemma shuffleRows_perm (seed : Nat) (rows : List Row) :
    List.Perm (shuffleRows seed rows) rows := by
  unfold shuffleRows
  have h1 :
      List.Perm
        (List.insertionSort keyLe
          (rows.enum.map (fun p => (shuffleKey seed p.1, p.1, p.2))))
        (rows.enum.map (fun p => (shuffleKey seed p.1, p.1, p.2))) :=
    List.perm_insertionSort keyLe _
  have h2 := h1.map (fun t : Nat × Nat × Row => t.2.2)
  refine h2.trans ?_
  rw [List.map_map]
  have h3 :
      ((fun t : Nat × Nat × Row => t.2.2) ∘
          (fun p : Nat × Row => (shuffleKey seed p.1, p.1, p.2))) =
        Prod.snd := rfl
  rw [h3, List.enum, List.enumFrom_map_snd]

lemma shuffleRows_length (seed : Nat) (rows : List Row) :
    (shuffleRows seed rows).length = rows.length :=
  (shuffleRows_perm seed rows).length_eq

/-- Flattening the `k` consecutive slices of width `rps` of a list
yields its first `k * rps` elements. -/
lemma chunks_flatten (l : List Row) (rps : Nat) :
    ∀ k : Nat,
      ((List.range k).map (fun i => (l.drop (i * rps)).take rps)).flatten =
        l.take (k * rps) := by
  intro k
  induction k with
  | zero => simp
  | succ k ih =>
    rw [List.range_succ, List.map_append, List.flatten_append, ih]
    simp only [List.map_cons, List.map_nil, List.flatten_cons,
      List.flatten_nil, List.append_nil]
    rw [Nat.succ_mul, List.take_add]

/-- Ceiling division: `n * ceil(R / n) ≥ R` for positive `n`. -/
lemma ceil_mul_ge (R n : Nat) (h : 1 ≤ n) :
    R ≤ n * ((R + n - 1) / n) := by
  have h1 := Nat.div_add_mod (R + n - 1) n
  have h2 : (R + n - 1) % n < n := Nat.mod_lt _ h
  omega

/-- For `n ≥ 1` the slices of `create_random_samples` flatten to the
whole shuffled row list. -/
lemma sampleChunks_flatten (table : Table) (n_sample : Int)
    (random_seed : Nat) (h : 1 ≤ n_sample) :
    (sampleChunks table n_sample random_seed).flatten =
      shuffleRows random_seed table := by
  unfold sampleChunks
  rw [chunks_flatten]
  apply List.take_of_length_le
  rw [shuffleRows_length]
  unfold rowsPerSample
  have hn : 1 ≤ n_sample.toNat := by omega
  calc table.length
      ≤ n_sample.toNat * ((table.length + n_sample.toNat - 1) / n_sample.toNat) :=
        ceil_mul_ge table.length n_sample.toNat hn
    _ = _ := rfl

/-- The flattened samples are a permutation of the source table. -/
lemma sampleChunks_perm (table : Table) (n_sample : Int)
    (random_seed : Nat) (h : 1 ≤ n_sample) :
    List.Perm (sampleChunks table n_sample random_seed).flatten table := by
  rw [sampleChunks_flatten table n_sample random_seed h]
  exact shuffleRows_perm random_seed table

/-- Sorting any permutation of a table whose rows are strictly sorted
by `id` restores the table exactly. -/
lemma sortById_of_perm (t : Table) (l : List Row) (hperm : List.Perm l t)
    (hsorted : t.Pairwise idLt) :
    List.insertionSort idLe l = t := by
  have hs : (List.insertionSort idLe l).Pairwise idLe :=
    List.sorted_insertionSort idLe l
  have hp : List.Perm (List.insertionSort idLe l) t :=
    (List.perm_insertionSort idLe l).trans hperm
  have hndt : (t.map idInt).Nodup := by
    have h1 : (t.map idInt).Pairwise (· < ·) :=
      List.pairwise_map.mpr hsorted
    exact h1.imp ne_of_lt
  have hnds : ((List.insertionSort idLe l).map idInt).Nodup :=
    ((hp.map idInt).nodup_iff).mpr hndt
  have hne : (List.insertionSort idLe l).Pairwise
      (fun a b => idInt a ≠ idInt b) :=
    List.pairwise_map.mp hnds
  have hlt : (List.insertionSort idLe l).Pairwise idLt := by
    refine (hs.and hne).imp ?_
    intro a b hab
    exact lt_of_le_of_ne hab.1 hab.2
  exact List.eq_of_perm_of_sorted (r := idLt) hp hlt hsorted

/-- Each sample is a sublist-style subset of the source table: every
row of every sample is (verbatim) a row of the source. -/
lemma sampleChunks_rows_mem (table : Table) (n_sample : Int)
    (random_seed : Nat) :
    ∀ s ∈ sampleChunks table n_sample random_seed, ∀ r ∈ s, r ∈ table := by
  intro s hs r hr
  unfold sampleChunks at hs
  obtain ⟨i, _, rfl⟩ := List.mem_map.mp hs
  have h1 : r ∈ (shuffleRows random_seed table).drop
      (i * rowsPerSample table.length n_sample) :=
    List.take_subset _ _ hr
  have h2 : r ∈ shuffleRows random_seed table :=
    List.drop_subset _ _ h1
  exact (shuffleRows_perm random_seed table).mem_iff.mp h2

/-- Whenever `create_random_samples` succeeds, the returned samples are
the slice list `sampleChunks` (and the sizes are their lengths). -/
lemma ok_samples_eq_chunks (table : Table) (n_sample : Int)
    (random_seed : Nat) (samples : List Table) (sizes : List Nat)
    (hok : create_random_samples table n_sample random_seed =
      Except.ok (samples, sizes)) :
    samples = sampleChunks table n_sample random_seed ∧
    sizes = (sampleChunks table n_sample random_seed).map List.length := by
  by_cases h : n_sample = 0
  · rw [create_random_samples, if_pos h] at hok
    exact absurd hok (by simp)
  · rw [create_random_samples_eq_ok table n_sample random_seed h] at hok
    injection hok with h1
    injection h1 with ha hb
    exact ⟨ha.symm, hb.symm⟩

lemma contains_int_iff (l : List Int) (a : Int) :
    l.contains a = true ↔ a ∈ l := by
  simp

/-- Under unique row identifiers, a row of the table is flagged by
`failsAnyRule` exactly when it fails at least one rule of the rule
set. -/
lemma failsAny_iff (t : Table) (rules : List Rule)
    (hnd : (t.map idInt).Nodup) (r : Row) (hr : r ∈ t) :
    failsAnyRule (interrogate t rules) r = true ↔
      ∃ rule ∈ rules, rowPasses rule r = false := by
  unfold failsAnyRule interrogate
  rw [List.any_eq_true]
  constructor
  · rintro ⟨res, hres, hcon⟩
    obtain ⟨rule, hrule, rfl⟩ := List.mem_map.mp hres
    refine ⟨rule, hrule, ?_⟩
    have hmem : idInt r ∈
        (t.filter (fun x => !rowPasses rule x)).map idInt :=
      (contains_int_iff _ _).mp hcon
    obtain ⟨r2, hr2, heq⟩ := List.mem_map.mp hmem
    obtain ⟨hr2t, hfail⟩ := List.mem_filter.mp hr2
    have hrr : r2 = r := List.inj_on_of_nodup_map hnd hr2t hr heq
    rw [← hrr]
    simpa using hfail
  · rintro ⟨rule, hrule, hfail⟩
    refine ⟨evalRule t rule, List.mem_map_of_mem _ hrule, ?_⟩
    have hmem : r ∈ t.filter (fun x => !rowPasses rule x) :=
      List.mem_filter.mpr ⟨hr, by simp [hfail]⟩
    exact (contains_int_iff _ _).mpr (List.mem_map_of_mem idInt hmem)

/-- Looking up `id` in an ingested row finds the appended row number
when the raw row had no `id` column of its own. -/
lemma lookup_id_addRowId (i : Nat) (r : Row)
    (h : r.lookup "id" = none) :
    idVal (addRowId i r) = some (Value.int (i + 1)) := by
  unfold idVal addRowId
  rw [List.lookup_append, h]
  rfl

/-- The `id` values of the ingested table are the consecutive row
numbers produced by `ROW_NUMBER() OVER ()`. -/
lemma ingest_idVals (raw : List Row)
    (h : ∀ r ∈ raw, r.lookup "id" = none) :
    ∀ k : Nat,
      (raw.enumFrom k).map (fun p => idVal (addRowId p.1 p.2)) =
        (List.range' (k + 1) raw.length).map
          (fun i : Nat => some (Value.int i)) := by
  induction raw with
  | nil => intro k; rfl
  | cons r rs ih =>
    intro k
    have hr : r.lookup "id" = none := h r (List.mem_cons_self r rs)
    have hs : ∀ r2 ∈ rs, r2.lookup "id" = none :=
      fun r2 hm => h r2 (List.mem_cons_of_mem r hm)
    simp only [List.enumFrom, List.map_cons, List.length_cons,
      List.range'_succ]
    congr 1
    · rw [lookup_id_addRowId k r hr]
      simp
    · rw [ih hs (k + 1)]

/-! ### The claims -/

/-- C1 (counterexample): partitioning a 23-row table into 5 samples
with seed 42 yields sample sizes `[5,5,5,5,3]`, not `[5,5,5,4,4]` as
claimed; the sizes differ by 2, so the balance bound
`max - min <= 1` fails.  (`rows_per_sample = ceil(23/5) = 5`, so the
code cuts four full chunks of 5 and one trailing chunk of 3.) -/
theorem c1_balance_counterexample :
    (create_random_samples table23 5 42).map Prod.snd =
      Except.ok [5, 5, 5, 5, 3] ∧
    [5, 5, 5, 5, 3] ≠ [5, 5, 5, 4, 4] ∧
    ¬ (∀ a ∈ [5, 5, 5, 5, 3], ∀ b ∈ [5, 5, 5, 5, 3], (a : Int) - b ≤ 1) :=
  ⟨rfl, by decide, by decide⟩

/-- C1 (amended): for `n ≥ 1` the partition returns samples whose
sizes are `min rps (R - i*rps)` for `i = 0, …, n-1`, where
`rps = ceil(R/n)`: every sample except possibly the trailing ones has
`rps` rows, the next has the remainder, and later samples are empty —
sizes can therefore differ by more than one; in particular a 23-row
table with `n = 5`, seed 42 yields sizes `[5,5,5,5,3]`. -/
theorem c1_sample_sizes (t : Table) (n : Int) (seed : Nat) (hn : 1 ≤ n) :
    ∃ samples sizes,
      create_random_samples t n seed = Except.ok (samples, sizes) ∧
      sizes = (List.range n.toNat).map
        (fun i => min (rowsPerSample t.length n)
          (t.length - i * rowsPerSample t.length n)) ∧
      (create_random_samples table23 5 42).map Prod.snd =
        Except.ok [5, 5, 5, 5, 3] := by
  have h0 : n ≠ 0 := by omega
  refine ⟨_, _, create_random_samples_eq_ok t n seed h0, ?_, rfl⟩
  unfold sampleChunks
  rw [List.map_map]
  apply List.map_congr_left
  intro i _
  simp only [Function.comp_apply, List.length_take, List.length_drop,
    shuffleRows_length]

/-- C1 witness: the amended size formula instantiated at the 23-row
table, `n = 5`, seed 42. -/
theorem c1_sample_sizes_witness :
    (1 : Int) ≤ 5 ∧
    ∃ samples sizes,
      create_random_samples table23 5 42 = Except.ok (samples, sizes) ∧
      sizes = (List.range (5 : Int).toNat).map
        (fun i => min (rowsPerSample table23.length 5)
          (table23.length - i * rowsPerSample table23.length 5)) ∧
      (create_random_samples table23 5 42).map Prod.snd =
        Except.ok [5, 5, 5, 5, 3] :=
  ⟨by decide, c1_sample_sizes table23 5 42 (by decide)⟩

/-- C3: the partition operation is deterministic — two calls of
`create_random_samples` with the same table, the same `n_sample`, and
the same seed produce identical results (the same samples, with the
same rows in the same sample buckets, and the same sizes); the shuffle
`shuffleRows` is a function of the seed and the rows only, so no
wall-clock or external entropy can enter. -/
theorem c3_partition_deterministic (t : Table) (n : Int) (seed : Nat) :
    create_random_samples t n seed = create_random_samples t n seed ∧
    shuffleRows seed t = shuffleRows seed t ∧
    sampleChunks t n seed = sampleChunks t n seed :=
  ⟨rfl, rfl, rfl⟩

/-- C4 (counterexample): calling the partition operation with
`n_sample = -1 ≤ 0` does not fail at all — the `range` loop of
`create_random_samples` is empty for a negative argument, so the call
returns an empty list of samples instead of raising `InvalidArgument`. -/
theorem c4_invalid_argument_counterexample :
    create_random_samples table3 (-1) 42 = Except.ok ([], []) := rfl

/-- C4 (amended): calling `create_random_samples` with `n_sample = 0`
raises `ZeroDivisionError` (from `math.ceil(total_rows / n_sample)`),
not `InvalidArgument`; calling it with `n_sample < 0` raises no error
and silently returns an empty list of samples. -/
theorem c4_nonpositive_n (t : Table) (n : Int) (seed : Nat) :
    create_random_samples t 0 seed =
      Except.error PyErr.zeroDivisionError ∧
    (n < 0 → create_random_samples t n seed = Except.ok ([], [])) := by
  constructor
  · rw [create_random_samples, if_pos rfl]
  · intro hneg
    have h0 : n ≠ 0 := by omega
    rw [create_random_samples_eq_ok t n seed h0]
    have ht : n.toNat = 0 := Int.toNat_of_nonpos (le_of_lt hneg)
    simp [sampleChunks, ht]

/-- C4 witness: the amended behaviour instantiated at a 3-row table
with `n_sample = -1`. -/
theorem c4_nonpositive_n_witness :
    (-1 : Int) < 0 ∧
    create_random_samples table3 (-1) 42 = Except.ok ([], []) :=
  ⟨by decide, (c4_nonpositive_n table3 (-1) 42).2 (by decide)⟩

/-- C10: for every `n ≥ 1` the partition returns exactly `n` samples,
and a sample whose slice starts at or past the end of the table is an
empty table rather than an error; in particular partitioning a 6-row
table into 4 samples yields sizes `[2, 2, 2, 0]`. -/
theorem c10_trailing_empty_samples (t : Table) (n : Int) (seed : Nat)
    (hn : 1 ≤ n) :
    ∃ samples sizes,
      create_random_samples t n seed = Except.ok (samples, sizes) ∧
      samples.length = n.toNat ∧
      (∀ i (h : i < samples.length),
        t.length ≤ i * rowsPerSample t.length n →
          samples.get ⟨i, h⟩ = []) ∧
      (create_random_samples table6 4 42).map Prod.snd =
        Except.ok [2, 2, 2, 0] := by
  have h0 : n ≠ 0 := by omega
  refine ⟨_, _, create_random_samples_eq_ok t n seed h0, ?_, ?_, rfl⟩
  · simp [sampleChunks]
  · intro i h hle
    simp only [List.get_eq_getElem, sampleChunks, List.getElem_map,
      List.getElem_range]
    rw [List.drop_eq_nil_of_le (by rw [shuffleRows_length]; exact hle),
      List.take_nil]

/-- C2: for `n ≥ 1` and a table whose rows are strictly sorted by
their unique `id` (the state of every ingested table), the partition's
samples flatten to a permutation of the table, each row identifier
occurs exactly once across all samples, and concatenating the samples
and sorting by `id` (`pd.concat(samples).sort_values("id")`) reproduces
the original table exactly — same rows, same values. -/
theorem c2_partition_round_trip (t : Table) (n : Int) (seed : Nat)
    (hn : 1 ≤ n) (hsorted : t.Pairwise idLt) :
    ∃ samples sizes,
      create_random_samples t n seed = Except.ok (samples, sizes) ∧
      List.Perm samples.flatten t ∧
      (∀ r ∈ t, (samples.flatten.map idInt).count (idInt r) = 1) ∧
      concat_samples samples = t := by
  have h0 : n ≠ 0 := by omega
  have hperm := sampleChunks_perm t n seed hn
  have h1 : (t.map idInt).Pairwise (· < ·) :=
    List.pairwise_map.mpr hsorted
  have hnd : (t.map idInt).Nodup := h1.imp ne_of_lt
  refine ⟨_, _, create_random_samples_eq_ok t n seed h0, hperm, ?_, ?_⟩
  · intro r hr
    rw [(hperm.map idInt).count_eq]
    exact List.count_eq_one_of_mem hnd (List.mem_map_of_mem idInt hr)
  · exact sortById_of_perm t _ hperm hsorted

/-- C2 witness: the round-trip statement instantiated at the ingested
3-row table with `n = 2`, seed 0. -/
theorem c2_partition_round_trip_witness :
    (1 : Int) ≤ 2 ∧ table3.Pairwise idLt ∧
    ∃ samples sizes,
      create_random_samples table3 2 0 = Except.ok (samples, sizes) ∧
      List.Perm samples.flatten table3 ∧
      (∀ r ∈ table3, (samples.flatten.map idInt).count (idInt r) = 1) ∧
      concat_samples samples = table3 :=
  ⟨by decide, by decide, c2_partition_round_trip table3 2 0 (by decide) (by decide)⟩

/-- C5: a `Between(column, lo, hi, PassOnNull)` rule passes a numeric
value iff `lo ≤ value ≤ hi` with both ends inclusive, passes null
values, and under `FailOnNull` fails them; on the 10-row scenario
table whose `age` column holds one null and one 85, the rule
`Between("age", 0, 70, PassOnNull)` marks exactly one row as failing —
the row with age 85 (id 3) — while the null row (index 1) passes. -/
theorem c5_between_rule :
    (∀ lo hi x : Int,
      (betweenPass lo hi NullPolicy.passOnNull (some (Value.int x)) = true ↔
        lo ≤ x ∧ x ≤ hi)) ∧
    (∀ lo hi : Int,
      betweenPass lo hi NullPolicy.passOnNull (some Value.null) = true) ∧
    (∀ lo hi : Int,
      betweenPass lo hi NullPolicy.failOnNull (some Value.null) = false) ∧
    (interrogate ageTable [Rule.between "age" 0 70 NullPolicy.passOnNull]).map
        RuleResult.failing_row_ids = [[3]] ∧
    (evalRule ageTable
        (Rule.between "age" 0 70 NullPolicy.passOnNull)).rows_evaluated = 10 ∧
    (evalRule ageTable
        (Rule.between "age" 0 70 NullPolicy.passOnNull)).rows_passed = 9 ∧
    colVal "age" (ageTable.getD 2 []) = some (Value.int 85) ∧
    colVal "age" (ageTable.getD 1 []) = some Value.null ∧
    rowPasses (Rule.between "age" 0 70 NullPolicy.passOnNull)
        (ageTable.getD 1 []) = true :=
  ⟨fun lo hi x => by simp [betweenPass], fun _ _ => rfl, fun _ _ => rfl,
    rfl, rfl, rfl, rfl, rfl, rfl⟩

/-- C6: an `InSet(column, allowed)` rule passes a row iff its value is
a member of `allowed`, and null values always fail (no implicit pass);
on the scenario table whose `embarked` column holds
`["C","Q","S","X",null]`, the rule `InSet("embarked", {"C","Q","S"})`
marks exactly 2 rows as failing: the `"X"` row (id 4) and the null row
(id 5). -/
theorem c6_in_set_rule :
    (∀ allowed : List Value, inSetPass allowed (some Value.null) = false) ∧
    (∀ (allowed : List Value) (s : String),
      (inSetPass allowed (some (Value.str s)) = true ↔
        Value.str s ∈ allowed)) ∧
    (∀ (allowed : List Value) (k : Int),
      (inSetPass allowed (some (Value.int k)) = true ↔
        Value.int k ∈ allowed)) ∧
    (interrogate embarkedTable
        [Rule.inSet "embarked"
          [Value.str "C", Value.str "Q", Value.str "S"]]).map
        RuleResult.failing_row_ids = [[4, 5]] ∧
    (evalRule embarkedTable
        (Rule.inSet "embarked"
          [Value.str "C", Value.str "Q", Value.str "S"])).rows_passed = 3 ∧
    colVal "embarked" (embarkedTable.getD 3 []) = some (Value.str "X") ∧
    colVal "embarked" (embarkedTable.getD 4 []) = some Value.null :=
  ⟨fun _ => rfl, fun allowed s => by simp [inSetPass],
    fun allowed k => by simp [inSetPass], rfl, rfl, rfl, rfl⟩

/-- C10 witness: the sample-count and empty-trailing-sample statement
instantiated at the 6-row table with `n = 4`, seed 42. -/
theorem c10_trailing_empty_samples_witness :
    (1 : Int) ≤ 4 ∧
    ∃ samples sizes,
      create_random_samples table6 4 42 = Except.ok (samples, sizes) ∧
      samples.length = (4 : Int).toNat ∧
      (∀ i (h : i < samples.length),
        table6.length ≤ i * rowsPerSample table6.length 4 →
          samples.get ⟨i, h⟩ = []) ∧
      (create_random_samples table6 4 42).map Prod.snd =
        Except.ok [2, 2, 2, 0] :=
  ⟨by decide, c10_trailing_empty_samples table6 4 42 (by decide)⟩

/-- C7: sundering a table by the report of `interrogate` yields a
failing table containing exactly the table rows flagged as failing, a
passing table containing exactly the complement, the two together a
permutation of the table with no row in both; and (for unique row
identifiers) a row is flagged exactly when it fails at least one rule
of the rule set — so passing and failing tables partition the table
with no overlap and no omission. -/
theorem c7_sunder_partition (t : Table) (rules : List Rule)
    (hnd : (t.map idInt).Nodup) :
    (∀ r, r ∈ (get_sundered_data t (interrogate t rules)).2 ↔
      r ∈ t ∧ failsAnyRule (interrogate t rules) r = true) ∧
    (∀ r, r ∈ (get_sundered_data t (interrogate t rules)).1 ↔
      r ∈ t ∧ failsAnyRule (interrogate t rules) r = false) ∧
    List.Perm ((get_sundered_data t (interrogate t rules)).1 ++
      (get_sundered_data t (interrogate t rules)).2) t ∧
    (∀ r, ¬ (r ∈ (get_sundered_data t (interrogate t rules)).1 ∧
      r ∈ (get_sundered_data t (interrogate t rules)).2)) ∧
    (∀ r ∈ t, (failsAnyRule (interrogate t rules) r = true ↔
      ∃ rule ∈ rules, rowPasses rule r = false)) := by
  refine ⟨?_, ?_, ?_, ?_, ?_⟩
  · intro r
    simp [get_sundered_data, List.mem_filter]
  · intro r
    simp [get_sundered_data, List.mem_filter]
  · have h := List.filter_append_perm
      (fun r => !failsAnyRule (interrogate t rules) r) t
    simpa [get_sundered_data] using h
  · intro r ⟨h1, h2⟩
    have hb1 := (List.mem_filter.mp h1).2
    have hb2 := (List.mem_filter.mp h2).2
    simp at hb1
    rw [hb1] at hb2
    exact absurd hb2 (by simp)
  · intro r hr
    exact failsAny_iff t rules hnd r hr

/-- C7 witness: the sunder partition statement instantiated at the
scenario-A table and its Between rule. -/
theorem c7_sunder_partition_witness :
    (ageTable.map idInt).Nodup ∧
    (∀ r, r ∈ (get_sundered_data ageTable
        (interrogate ageTable
          [Rule.between "age" 0 70 NullPolicy.passOnNull])).2 ↔
      r ∈ ageTable ∧ failsAnyRule
        (interrogate ageTable
          [Rule.between "age" 0 70 NullPolicy.passOnNull]) r = true) :=
  ⟨by decide,
    (c7_sunder_partition ageTable
      [Rule.between "age" 0 70 NullPolicy.passOnNull] (by decide)).1⟩

/-- C8: the partition and validation operations are side-effect-free
on their inputs — threading the source table through every read that
`create_random_samples` performs (`SELECT COUNT(*)`, `SELECT *`)
returns the source unchanged, the state-threaded run computes exactly
the pure result, and `validate_titanic_data_sample` returns its input
table unchanged alongside the report. -/
theorem c8_inputs_unchanged (db : Table) (n : Int) (seed : Nat) :
    (create_random_samples_db db n seed).2 = db ∧
    (create_random_samples_db db n seed).1 =
      create_random_samples db n seed ∧
    (validate_titanic_data_sample db).2 = db := by
  refine ⟨?_, ?_, rfl⟩
  · unfold create_random_samples_db sql_count sql_select_all
    split <;> rfl
  · unfold create_random_samples_db create_random_samples
      sql_count sql_select_all
    split <;> rfl

/-- C9: ingestion assigns the row identifiers once — the `id` column of
`get_create_titanic_db` holds the consecutive row numbers `1..R`, which
are pairwise distinct — and no later operation reassigns them: every
row of every sample produced by `create_random_samples`, and every row
of either half of `get_sundered_data`, is verbatim a row of the
ingested table (same columns, same `id`). -/
theorem c9_unique_stable_ids (raw : List Row)
    (h : ∀ r ∈ raw, r.lookup "id" = none) (n : Int) (seed : Nat)
    (samples : List Table) (sizes : List Nat)
    (hok : create_random_samples (get_create_titanic_db raw) n seed =
      Except.ok (samples, sizes)) :
    (get_create_titanic_db raw).map idVal =
      (List.range' 1 raw.length).map (fun i : Nat => some (Value.int i)) ∧
    ((get_create_titanic_db raw).map idVal).Nodup ∧
    (∀ s ∈ samples, ∀ r ∈ s, r ∈ get_create_titanic_db raw) ∧
    (∀ report : List RuleResult, ∀ r2 : Row,
      (r2 ∈ (get_sundered_data (get_create_titanic_db raw) report).1 →
        r2 ∈ get_create_titanic_db raw) ∧
      (r2 ∈ (get_sundered_data (get_create_titanic_db raw) report).2 →
        r2 ∈ get_create_titanic_db raw)) := by
  have hids : (get_create_titanic_db raw).map idVal =
      (List.range' 1 raw.length).map
        (fun i : Nat => some (Value.int i)) := by
    rw [get_create_titanic_db, List.map_map]
    exact ingest_idVals raw h 0
  refine ⟨hids, ?_, ?_, ?_⟩
  · rw [hids]
    refine List.Nodup.map ?_ (List.nodup_range' 1 raw.length)
    intro i j hij
    simpa using hij
  · have hsc := (ok_samples_eq_chunks _ n seed samples sizes hok).1
    rw [hsc]
    exact sampleChunks_rows_mem (get_create_titanic_db raw) n seed
  · intro report r2
    exact ⟨fun hm => List.mem_of_mem_filter hm,
      fun hm => List.mem_of_mem_filter hm⟩

/-- C9 witness: the unique-and-stable-identifier statement
instantiated at three empty raw rows, `n = 2`, seed 0. -/
theorem c9_unique_stable_ids_witness :
    (∀ r ∈ List.replicate 3 ([] : Row), r.lookup "id" = none) ∧
    create_random_samples
        (get_create_titanic_db (List.replicate 3 ([] : Row))) 2 0 =
      Except.ok ([[[("id", Value.int 1)], [("id", Value.int 2)]],
        [[("id", Value.int 3)]]], [2, 1]) ∧
    (get_create_titanic_db (List.replicate 3 ([] : Row))).map idVal =
      (List.range' 1 (List.replicate 3 ([] : Row)).length).map
        (fun i : Nat => some (Value.int i)) :=
  ⟨by decide, rfl,
    (c9_unique_stable_ids (List.replicate 3 ([] : Row)) (by decide) 2 0
      [[[("id", Value.int 1)], [("id", Value.int 2)]],
        [[("id", Value.int 3)]]] [2, 1] rfl).1⟩

end TryPointBlank
